import Mathlib

/-!
Shallow embedding of `generate_shapes.py`: a distance-field rasterizer for two
hollow glyphs (an upward triangle and a square) on a 32×32 RGBA canvas, and a
TGA encoder (`create_tga`).

Every squared distance the Python code feeds to `math.sqrt` is a rational
number, so a distance value is represented exactly by its square as an integer
fraction (`Frac`).  The float comparisons of the source (`min_dist <= 4.5`,
`min_dist <= 1.0`, ...) and the truncating alpha formula
`int(150 * (1 - d / 4.5))` are expressed exactly on these squares.
-/

set_option maxRecDepth 4000

namespace PfShapes

/-- RGBA pixel, the 4-tuple `(r, g, b, a)` stored in `pixels[y][x]`. -/
structure Pixel where
  r : ℕ
  g : ℕ
  b : ℕ
  a : ℕ
deriving DecidableEq

/-- Squared distance represented exactly as `num / den`; every constructor in
this development produces `0 ≤ num` and `0 < den`. -/
structure Frac where
  num : ℤ
  den : ℤ
deriving DecidableEq

/-- Comparison `a ≤ b` of two squared distances (valid for positive
denominators). -/
def Frac.le (a b : Frac) : Bool :=
  decide (a.num * b.den ≤ b.num * a.den)

/-- Binary minimum; `Python`'s `min` keeps the left argument on ties. -/
def Frac.min2 (a b : Frac) : Frac :=
  if a.le b then a else b

/-- The float test `sqrt (f) <= 1.0` of the source (`outline_thickness`),
on the squared distance: `f ≤ 1`. -/
def leOutlineT (f : Frac) : Bool :=
  decide (f.num ≤ f.den)

/-- The float test `sqrt (f) <= 4.5` of the source (`glow_thickness`),
on the squared distance: `f ≤ 81/4`. -/
def leGlowT (f : Frac) : Bool :=
  decide (4 * f.num ≤ 81 * f.den)

/-- The float test `sqrt (f) <= 5.5` of the source
(`outline_thickness + glow_thickness`), on the squared distance:
`f ≤ 121/4`. -/
def leTotalT (f : Frac) : Bool :=
  decide (4 * f.num ≤ 121 * f.den)

/-- Squared distance from `(px, py)` to the segment `(x1, y1)-(x2, y2)`:
embedding of `distance_to_line` in `draw_hollow_triangle_up`.  The projection
parameter `t = clamp(((px-x1)·dx + (py-y1)·dy) / (dx²+dy²), 0, 1)` gives
three cases: clamped to 0 (first endpoint), clamped to 1 (second endpoint),
or the interior projection with denominator `(dx²+dy²)²`. -/
def distSqSeg (px py x1 y1 x2 y2 : ℤ) : Frac :=
  let dx := x2 - x1
  let dy := y2 - y1
  if dx = 0 ∧ dy = 0 then
    ⟨(px - x1) ^ 2 + (py - y1) ^ 2, 1⟩
  else
    let dd := dx ^ 2 + dy ^ 2
    let s := (px - x1) * dx + (py - y1) * dy
    if s ≤ 0 then
      ⟨(px - x1) ^ 2 + (py - y1) ^ 2, 1⟩
    else if dd ≤ s then
      ⟨(px - x2) ^ 2 + (py - y2) ^ 2, 1⟩
    else
      ⟨((px - x1) * dd - s * dx) ^ 2 + ((py - y1) * dd - s * dy) ^ 2, dd ^ 2⟩

/-- Triangle vertex `top = (size // 2, margin)` with `margin = 7`. -/
def triTop (size : ℤ) : ℤ × ℤ := (size / 2, 7)

/-- Triangle vertex `bottom_left = (margin, size - margin - 1)`. -/
def triBL (size : ℤ) : ℤ × ℤ := (7, size - 8)

/-- Triangle vertex `bottom_right = (size - margin - 1, size - margin - 1)`. -/
def triBR (size : ℤ) : ℤ × ℤ := (size - 8, size - 8)

/-- The `sign` helper of `point_in_triangle`. -/
def signArea (p1 p2 p3 : ℤ × ℤ) : ℤ :=
  (p1.1 - p3.1) * (p2.2 - p3.2) - (p2.1 - p3.1) * (p1.2 - p3.2)

/-- Embedding of `point_in_triangle`: the sign-of-cross-product test against
the three vertex pairs. -/
def pointInTriangle (t bl br : ℤ × ℤ) (px py : ℤ) : Bool :=
  let d1 := signArea (px, py) t bl
  let d2 := signArea (px, py) bl br
  let d3 := signArea (px, py) br t
  let hasNeg := decide (d1 < 0) || decide (d2 < 0) || decide (d3 < 0)
  let hasPos := decide (0 < d1) || decide (0 < d2) || decide (0 < d3)
  !(hasNeg && hasPos)

/-- Squared minimum distance `min(d1, d2, d3)` from a pixel to the three
triangle edges. -/
def triMinDistSq (size px py : ℤ) : Frac :=
  let t := triTop size
  let l := triBL size
  let r := triBR size
  let d1 := distSqSeg px py t.1 t.2 l.1 l.2
  let d2 := distSqSeg px py l.1 l.2 r.1 r.2
  let d3 := distSqSeg px py r.1 r.2 t.1 t.2
  Frac.min2 (Frac.min2 d1 d2) d3

/-- Inside test of the triangle rasterizer at one pixel. -/
def triInside (size px py : ℤ) : Bool :=
  pointInTriangle (triTop size) (triBL size) (triBR size) px py

/-- Integer form of `k ≤ 150 - (100/3)·√(num/den)`, namely
`10000·num ≤ 9·den·(150 - k)²` (valid for `k ≤ 150`). -/
def outerP (f : Frac) (k : ℕ) : Prop :=
  10000 * f.num ≤ 9 * f.den * ((150 : ℤ) - (k : ℤ)) ^ 2

instance (f : Frac) : DecidablePred (outerP f) := fun _ => by
  unfold outerP; infer_instance

/-- Integer form of `k ≤ 150 - (100/3)·(√(num/den) - 1)`, namely
`10000·num ≤ den·(550 - 3k)²` (valid for `k ≤ 150`). -/
def innerP (f : Frac) (k : ℕ) : Prop :=
  10000 * f.num ≤ f.den * ((550 : ℤ) - 3 * (k : ℤ)) ^ 2

instance (f : Frac) : DecidablePred (innerP f) := fun _ => by
  unfold innerP; infer_instance

/-- Truncated outer-glow alpha `int(150 * (1 - d / 4.5))` where `d = √(f)`:
the greatest `k ≤ 150` with `k ≤ 150 - (100/3)·√(num/den)`. -/
def alphaOuterGlow (f : Frac) : ℕ :=
  Nat.findGreatest (outerP f) 150

/-- Truncated inner-glow alpha `int(150 * (1 - (d - 1) / 4.5))` where
`d = √(f)`: the greatest `k ≤ 150` with `100·√(num/den) ≤ 550 - 3k`. -/
def alphaInnerGlow (f : Frac) : ℕ :=
  Nat.findGreatest (innerP f) 150

/-- Fully transparent background pixel `(0, 0, 0, 0)`. -/
def clearPx : Pixel := ⟨0, 0, 0, 0⟩

/-- Opaque black outline pixel `(0, 0, 0, 255)`. -/
def blackPx : Pixel := ⟨0, 0, 0, 255⟩

/-- White glow pixel `(255, 255, 255, a)`. -/
def whitePx (a : ℕ) : Pixel := ⟨255, 255, 255, a⟩

/-- Guard of the triangle's outer-glow stage:
`not inside and min_dist <= glow_thickness`. -/
def triOuterCond (size px py : ℤ) : Bool :=
  !(triInside size px py) && leGlowT (triMinDistSq size px py)

/-- Guard of the triangle's outline stage: `min_dist <= outline_thickness`. -/
def triOutlineCond (size px py : ℤ) : Bool :=
  leOutlineT (triMinDistSq size px py)

/-- Guard of the triangle's inner-glow stage:
`inside and min_dist > outline_thickness and
min_dist <= outline_thickness + glow_thickness`. -/
def triInnerCond (size px py : ℤ) : Bool :=
  triInside size px py && !(leOutlineT (triMinDistSq size px py)) &&
    leTotalT (triMinDistSq size px py)

/-- Final value of `pixels[py][px]` computed by `draw_hollow_triangle_up`:
the three sequential overwrites (outer glow, then outline, then inner glow)
applied to the transparent background. -/
def triPixel (size px py : ℤ) : Pixel :=
  let md := triMinDistSq size px py
  let inside := triInside size px py
  let p1 :=
    if !inside && leGlowT md then
      let a := alphaOuterGlow md
      if 10 < a then whitePx a else clearPx
    else clearPx
  let p2 := if leOutlineT md then blackPx else p1
  if inside && !(leOutlineT md) && leTotalT md then
    let a := alphaInnerGlow md
    if 10 < a then whitePx a else p2
  else p2

/-- The grid returned by `draw_hollow_triangle_up(size)`. -/
def triangleGrid (size : ℕ) : List (List Pixel) :=
  (List.range size).map fun y : ℕ =>
    (List.range size).map fun x : ℕ => triPixel (size : ℤ) (x : ℤ) (y : ℤ)

/-- Inside test of `draw_hollow_square`:
`left <= x <= right and top <= y <= bottom` with
`left = top = 8`, `right = bottom = size - 9`. -/
def sqInside (size px py : ℤ) : Bool :=
  decide (8 ≤ px ∧ px ≤ size - 9 ∧ 8 ≤ py ∧ py ≤ size - 9)

/-- Squared `edge_dist` of `draw_hollow_square`: from inside, the integer
minimum of the four side distances (squared); from outside,
`dx² + dy²` with the clamped offsets `dx = max(left-x, 0, x-right)` and
`dy = max(top-y, 0, y-bottom)`.  (The source's special case `edge_dist = 0`
when `dx = dy = 0` has the same value as `sqrt(0)`.) -/
def sqEdgeDistSq (size px py : ℤ) : Frac :=
  if sqInside size px py then
    let e := min (min (px - 8) (size - 9 - px)) (min (py - 8) (size - 9 - py))
    ⟨e ^ 2, 1⟩
  else
    let dx := max (8 - px) (max 0 (px - (size - 9)))
    let dy := max (8 - py) (max 0 (py - (size - 9)))
    ⟨dx ^ 2 + dy ^ 2, 1⟩

/-- Guard of the square's outer-glow stage. -/
def sqOuterCond (size px py : ℤ) : Bool :=
  !(sqInside size px py) && leGlowT (sqEdgeDistSq size px py)

/-- Guard of the square's outline stage (the `if inside ... elif not
inside ...` pair collapses to `edge_dist <= outline_thickness`). -/
def sqOutlineCond (size px py : ℤ) : Bool :=
  (sqInside size px py && leOutlineT (sqEdgeDistSq size px py)) ||
    (!(sqInside size px py) && leOutlineT (sqEdgeDistSq size px py))

/-- Guard of the square's inner-glow stage. -/
def sqInnerCond (size px py : ℤ) : Bool :=
  sqInside size px py && !(leOutlineT (sqEdgeDistSq size px py)) &&
    leTotalT (sqEdgeDistSq size px py)

/-- Final value of `pixels[py][px]` computed by `draw_hollow_square`. -/
def sqPixel (size px py : ℤ) : Pixel :=
  let ed := sqEdgeDistSq size px py
  let inside := sqInside size px py
  let p1 :=
    if !inside && leGlowT ed then
      let a := alphaOuterGlow ed
      if 10 < a then whitePx a else clearPx
    else clearPx
  let p2 :=
    if inside && leOutlineT ed then blackPx
    else if !inside && leOutlineT ed then blackPx
    else p1
  if inside && !(leOutlineT ed) && leTotalT ed then
    let a := alphaInnerGlow ed
    if 10 < a then whitePx a else p2
  else p2

/-- The grid returned by `draw_hollow_square(size)`. -/
def squareGrid (size : ℕ) : List (List Pixel) :=
  (List.range size).map fun y : ℕ =>
    (List.range size).map fun x : ℕ => sqPixel (size : ℤ) (x : ℤ) (y : ℤ)

/-- Little-endian 16-bit field of `struct.pack`'s `H`. -/
def packLE16 (v : ℕ) : List ℕ := [v % 256, v / 256]

/-- The 18-byte header `struct.pack('<BBBHHBHHHHBB', 0,0,2, 0,0,0, 0,0,
SIZE,SIZE, 32,0x08)` of `create_tga`, with `SIZE = 32`. -/
def tgaHeader : List ℕ :=
  [0, 0, 2] ++ packLE16 0 ++ packLE16 0 ++ [0] ++ packLE16 0 ++ packLE16 0 ++
    packLE16 32 ++ packLE16 32 ++ [32, 0x08]

/-- The four bytes `struct.pack('BBBB', b, g, r, a)` written per pixel. -/
def pxBytes (p : Pixel) : List ℕ := [p.b, p.g, p.r, p.a]

/-- Iteration order of the pixel loop of `create_tga`:
`for y in range(SIZE - 1, -1, -1): for x in range(SIZE):`, i.e. rows from
`y = 31` down to `y = 0`, left to right inside a row. -/
def tgaCoords : List (ℕ × ℕ) :=
  ((List.range 32).reverse).flatMap fun y => (List.range 32).map fun x => (y, x)

/-- The Python subscript `pixels[y][x]`, which raises on an out-of-range
index: `none` models the raised `IndexError`. -/
def lookupPx (pixels : List (List Pixel)) (y x : ℕ) : Option Pixel :=
  pixels[y]?.bind fun row => row[x]?

/-- Total variant of `pixels[y][x]` used to state what a successful lookup
returns. -/
def getPx (pixels : List (List Pixel)) (y x : ℕ) : Pixel :=
  (pixels.getD y []).getD x clearPx

/-- Bytes produced by the pixel loop of `create_tga` over a list of
coordinates, together with a success flag: on the first failing subscript
the loop stops (the exception propagates), keeping the bytes already
written. -/
def writePixels (pixels : List (List Pixel)) : List (ℕ × ℕ) → List ℕ × Bool
  | [] => ([], true)
  | c :: cs =>
    match lookupPx pixels c.1 c.2 with
    | none => ([], false)
    | some p =>
      let rest := writePixels pixels cs
      (pxBytes p ++ rest.1, rest.2)

/-- Embedding of `create_tga`: the bytes that reach the file (header first,
then the pixel stream up to the first error) and whether the write ran to
completion without an `IndexError`. -/
def createTga (pixels : List (List Pixel)) : List ℕ × Bool :=
  let w := writePixels pixels tgaCoords
  (tgaHeader ++ w.1, w.2)

/-- Well-formed input for the encoder: a 32×32 grid of 8-bit RGBA pixels. -/
def grid32 (pixels : List (List Pixel)) : Prop :=
  pixels.length = 32 ∧ ∀ row ∈ pixels, row.length = 32 ∧
    ∀ p ∈ row, p.r ≤ 255 ∧ p.g ≤ 255 ∧ p.b ≤ 255 ∧ p.a ≤ 255

instance (pixels : List (List Pixel)) : Decidable (grid32 pixels) := by
  unfold grid32; infer_instance

/-- The 32×32 grid whose only non-transparent pixel is
`grid[0][0] = (R=10, G=20, B=30, A=255)`. -/
def chanGrid : List (List Pixel) :=
  (⟨10, 20, 30, 255⟩ :: List.replicate 31 clearPx) ::
    List.replicate 31 (List.replicate 32 clearPx)

/-- An all-transparent 32×32 grid. -/
def clearGrid : List (List Pixel) :=
  List.replicate 32 (List.replicate 32 clearPx)

/-- A 32×33 grid: one extra column beyond the fixed canvas size. -/
def wideGrid : List (List Pixel) :=
  List.replicate 32 (List.replicate 33 clearPx)

/-- A 40×32 grid: eight extra rows beyond the fixed canvas size. -/
def tallGrid : List (List Pixel) :=
  List.replicate 40 (List.replicate 32 clearPx)

/-! ### Invariants of the squared distances -/

lemma distSqSeg_num_nonneg (px py x1 y1 x2 y2 : ℤ) :
    0 ≤ (distSqSeg px py x1 y1 x2 y2).num := by
  unfold distSqSeg
  dsimp only
  split
  · positivity
  · split
    · positivity
    · split
      · positivity
      · positivity

lemma distSqSeg_den_pos (px py x1 y1 x2 y2 : ℤ) :
    0 < (distSqSeg px py x1 y1 x2 y2).den := by
  unfold distSqSeg
  dsimp only
  split
  · norm_num
  · rename_i hne
    split
    · norm_num
    · split
      · norm_num
      · have h2 : x2 - x1 ≠ 0 ∨ y2 - y1 ≠ 0 := by
          by_contra hc
          push_neg at hc
          exact hne ⟨hc.1, hc.2⟩
        have hpos : 0 < (x2 - x1) ^ 2 + (y2 - y1) ^ 2 := by
          rcases h2 with h | h
          · have := sq_nonneg (y2 - y1)
            have h1 : 0 < (x2 - x1) ^ 2 := by positivity
            linarith
          · have := sq_nonneg (x2 - x1)
            have h1 : 0 < (y2 - y1) ^ 2 := by positivity
            linarith
        positivity

lemma Frac.min2_eq_or (a b : Frac) : a.min2 b = a ∨ a.min2 b = b := by
  unfold Frac.min2
  split
  · exact Or.inl rfl
  · exact Or.inr rfl

lemma triMinDistSq_num_nonneg (size px py : ℤ) :
    0 ≤ (triMinDistSq size px py).num := by
  unfold triMinDistSq
  dsimp only
  rcases Frac.min2_eq_or (Frac.min2 (distSqSeg px py _ _ _ _) (distSqSeg px py _ _ _ _))
      (distSqSeg px py _ _ _ _) with h | h <;> rw [h]
  · rcases Frac.min2_eq_or (distSqSeg px py _ _ _ _) (distSqSeg px py _ _ _ _) with
        h' | h' <;> rw [h'] <;> exact distSqSeg_num_nonneg ..
  · exact distSqSeg_num_nonneg ..

lemma triMinDistSq_den_pos (size px py : ℤ) :
    0 < (triMinDistSq size px py).den := by
  unfold triMinDistSq
  dsimp only
  rcases Frac.min2_eq_or (Frac.min2 (distSqSeg px py _ _ _ _) (distSqSeg px py _ _ _ _))
      (distSqSeg px py _ _ _ _) with h | h <;> rw [h]
  · rcases Frac.min2_eq_or (distSqSeg px py _ _ _ _) (distSqSeg px py _ _ _ _) with
        h' | h' <;> rw [h'] <;> exact distSqSeg_den_pos ..
  · exact distSqSeg_den_pos ..

lemma sqEdgeDistSq_num_nonneg (size px py : ℤ) :
    0 ≤ (sqEdgeDistSq size px py).num := by
  unfold sqEdgeDistSq
  split
  · positivity
  · positivity

lemma sqEdgeDistSq_den_pos (size px py : ℤ) :
    0 < (sqEdgeDistSq size px py).den := by
  unfold sqEdgeDistSq
  split <;> norm_num

/-! ### Bridge between the integer comparisons and real square roots -/

/-- For `0 ≤ n`, `0 < m`, `0 ≤ a`, `0 < b`:
`√(n/m) ≤ a/b` if and only if `b²·n ≤ a²·m`. -/
lemma sqrt_frac_le_div (n m a b : ℤ) (hn : 0 ≤ n) (hm : 0 < m) (ha : 0 ≤ a)
    (hb : 0 < b) :
    Real.sqrt ((n : ℝ) / (m : ℝ)) ≤ (a : ℝ) / (b : ℝ) ↔ b ^ 2 * n ≤ a ^ 2 * m := by
  have hm' : (0 : ℝ) < (m : ℝ) := by exact_mod_cast hm
  have hb' : (0 : ℝ) < (b : ℝ) := by exact_mod_cast hb
  have ha' : (0 : ℝ) ≤ (a : ℝ) := by exact_mod_cast ha
  rw [Real.sqrt_le_left (by positivity), div_pow, div_le_div_iff hm' (by positivity)]
  constructor
  · intro h
    have h' : ((b ^ 2 * n : ℤ) : ℝ) ≤ ((a ^ 2 * m : ℤ) : ℝ) := by
      push_cast
      nlinarith [h]
    exact_mod_cast h'
  · intro h
    have h' : ((b ^ 2 * n : ℤ) : ℝ) ≤ ((a ^ 2 * m : ℤ) : ℝ) := by exact_mod_cast h
    push_cast at h'
    nlinarith [h']

/-- The outline comparison `√(num/den) ≤ 1` coincides with `leOutlineT`. -/
lemma leOutlineT_iff_sqrt (f : Frac) (hn : 0 ≤ f.num) (hm : 0 < f.den) :
    leOutlineT f = true ↔
      Real.sqrt ((f.num : ℝ) / (f.den : ℝ)) ≤ 1 := by
  have h := sqrt_frac_le_div f.num f.den 1 1 hn hm (by norm_num) (by norm_num)
  simp only [Int.cast_one, div_one, one_pow, one_mul] at h
  rw [leOutlineT, decide_eq_true_iff]
  exact h.symm

/-- The glow comparison `√(num/den) ≤ 4.5` coincides with `leGlowT`. -/
lemma leGlowT_iff_sqrt (f : Frac) (hn : 0 ≤ f.num) (hm : 0 < f.den) :
    leGlowT f = true ↔
      Real.sqrt ((f.num : ℝ) / (f.den : ℝ)) ≤ 9 / 2 := by
  have h := sqrt_frac_le_div f.num f.den 9 2 hn hm (by norm_num) (by norm_num)
  norm_num at h
  rw [leGlowT, decide_eq_true_iff]
  constructor
  · intro hle
    exact h.mpr (by linarith)
  · intro hle
    have := h.mp hle
    linarith

/-- The truncated outer-glow alpha is the floor of the real-valued product
`150 * (1 - d / 4.5)` with `d` the real distance `√(num/den)`, whenever the
outer-glow guard `d ≤ 4.5` holds. -/
lemma alphaOuterGlow_eq_floor (f : Frac) (hn : 0 ≤ f.num) (hm : 0 < f.den)
    (hg : leGlowT f = true) :
    (alphaOuterGlow f : ℤ)
      = ⌊(150 : ℝ) * (1 - Real.sqrt ((f.num : ℝ) / (f.den : ℝ)) / (9 / 2))⌋ := by
  have hg' : 4 * f.num ≤ 81 * f.den := by
    rw [leGlowT, decide_eq_true_iff] at hg
    exact hg
  set d : ℝ := Real.sqrt ((f.num : ℝ) / (f.den : ℝ)) with hd
  have hd0 : 0 ≤ d := Real.sqrt_nonneg _
  have hdle : d ≤ 9 / 2 := (leGlowT_iff_sqrt f hn hm).mp (by
    rw [leGlowT, decide_eq_true_iff]; exact hg')
  have hveq : (150 : ℝ) * (1 - d / (9 / 2)) = 150 - 100 / 3 * d := by ring
  rw [hveq]
  have hkey : ∀ k : ℕ, k ≤ 150 →
      (outerP f k ↔ ((k : ℝ) ≤ 150 - 100 / 3 * d)) := by
    intro k hk
    have hk' : (k : ℤ) ≤ 150 := by exact_mod_cast hk
    have ha : (0 : ℤ) ≤ 3 * (150 - (k : ℤ)) := by omega
    have hiff := sqrt_frac_le_div f.num f.den (3 * (150 - (k : ℤ))) 100 hn hm ha
      (by norm_num)
    have e1 : ((100 : ℤ)) ^ 2 * f.num = 10000 * f.num := by norm_num
    have e2 : (3 * (150 - (k : ℤ))) ^ 2 * f.den
        = 9 * f.den * ((150 : ℤ) - (k : ℤ)) ^ 2 := by ring
    rw [e1, e2] at hiff
    have hcast : ((3 * (150 - (k : ℤ)) : ℤ) : ℝ) / ((100 : ℤ) : ℝ)
        = (450 - 3 * (k : ℝ)) / 100 := by push_cast; ring
    rw [hcast] at hiff
    rw [outerP, ← hiff]
    constructor
    · intro h; linarith
    · intro h; linarith
  have hP0 : outerP f 0 := (hkey 0 (by norm_num)).mpr (by norm_num; linarith)
  have hKle : alphaOuterGlow f ≤ 150 := Nat.findGreatest_le 150
  have hPK : outerP f (alphaOuterGlow f) :=
    Nat.findGreatest_spec (Nat.zero_le 150) hP0
  have h1 : (alphaOuterGlow f : ℤ) ≤ ⌊(150 : ℝ) - 100 / 3 * d⌋ := by
    rw [Int.le_floor]
    have := (hkey (alphaOuterGlow f) hKle).mp hPK
    push_cast
    exact this
  have hv0 : (0 : ℝ) ≤ 150 - 100 / 3 * d := by linarith
  have hfl0 : 0 ≤ ⌊(150 : ℝ) - 100 / 3 * d⌋ := Int.floor_nonneg.mpr hv0
  have hfl150 : ⌊(150 : ℝ) - 100 / 3 * d⌋ ≤ 150 := by
    have h2 : ⌊(150 : ℝ) - 100 / 3 * d⌋ ≤ ⌊((150 : ℤ) : ℝ)⌋ :=
      Int.floor_le_floor (by push_cast; linarith)
    rwa [Int.floor_intCast] at h2
  have hj : ((⌊(150 : ℝ) - 100 / 3 * d⌋.toNat : ℤ)) = ⌊(150 : ℝ) - 100 / 3 * d⌋ :=
    Int.toNat_of_nonneg hfl0
  have hj150 : ⌊(150 : ℝ) - 100 / 3 * d⌋.toNat ≤ 150 := by omega
  have hPj : outerP f (⌊(150 : ℝ) - 100 / 3 * d⌋.toNat) := by
    refine (hkey _ hj150).mpr ?_
    have hfle : ((⌊(150 : ℝ) - 100 / 3 * d⌋ : ℤ) : ℝ) ≤ 150 - 100 / 3 * d :=
      Int.floor_le _
    rw [← hj] at hfle
    exact_mod_cast hfle
  have h2 : ⌊(150 : ℝ) - 100 / 3 * d⌋.toNat ≤ alphaOuterGlow f :=
    Nat.le_findGreatest hj150 hPj
  omega

/-- The truncated inner-glow alpha is the floor of the real-valued product
`150 * (1 - (d - 1) / 4.5)` with `d` the real distance `√(num/den)`,
whenever the inner-glow guard `1 < d ≤ 5.5` holds (only `1 ≤ d` is used). -/
lemma alphaInnerGlow_eq_floor (f : Frac) (hn : 0 ≤ f.num) (hm : 0 < f.den)
    (h1 : f.den ≤ f.num) (ht : leTotalT f = true) :
    (alphaInnerGlow f : ℤ)
      = ⌊(150 : ℝ) * (1 - (Real.sqrt ((f.num : ℝ) / (f.den : ℝ)) - 1) / (9 / 2))⌋ := by
  have ht' : 4 * f.num ≤ 121 * f.den := by
    rw [leTotalT, decide_eq_true_iff] at ht
    exact ht
  set d : ℝ := Real.sqrt ((f.num : ℝ) / (f.den : ℝ)) with hd
  have hd0 : 0 ≤ d := Real.sqrt_nonneg _
  have hm' : (0 : ℝ) < (f.den : ℝ) := by exact_mod_cast hm
  have hd1 : 1 ≤ d := by
    rw [hd, Real.le_sqrt (by norm_num) (by positivity)]
    rw [one_pow, le_div_iff hm', one_mul]
    exact_mod_cast h1
  have hdle : d ≤ 11 / 2 := by
    have hiff := sqrt_frac_le_div f.num f.den 11 2 hn hm (by norm_num) (by norm_num)
    norm_num at hiff
    have := hiff.mpr (by linarith)
    linarith
  have hveq : (150 : ℝ) * (1 - (d - 1) / (9 / 2)) = 150 - 100 / 3 * (d - 1) := by
    ring
  rw [hveq]
  have hkey : ∀ k : ℕ, k ≤ 150 →
      (innerP f k ↔ ((k : ℝ) ≤ 150 - 100 / 3 * (d - 1))) := by
    intro k hk
    have hk' : (k : ℤ) ≤ 150 := by exact_mod_cast hk
    have ha : (0 : ℤ) ≤ 550 - 3 * (k : ℤ) := by omega
    have hiff := sqrt_frac_le_div f.num f.den (550 - 3 * (k : ℤ)) 100 hn hm ha
      (by norm_num)
    have e1 : ((100 : ℤ)) ^ 2 * f.num = 10000 * f.num := by norm_num
    have e2 : (550 - 3 * (k : ℤ)) ^ 2 * f.den
        = f.den * ((550 : ℤ) - 3 * (k : ℤ)) ^ 2 := by ring
    rw [e1, e2] at hiff
    have hcast : ((550 - 3 * (k : ℤ) : ℤ) : ℝ) / ((100 : ℤ) : ℝ)
        = (550 - 3 * (k : ℝ)) / 100 := by push_cast; ring
    rw [hcast] at hiff
    rw [innerP, ← hiff]
    constructor
    · intro h; linarith
    · intro h; linarith
  have hP0 : innerP f 0 := (hkey 0 (by norm_num)).mpr (by norm_num; linarith)
  have hKle : alphaInnerGlow f ≤ 150 := Nat.findGreatest_le 150
  have hPK : innerP f (alphaInnerGlow f) :=
    Nat.findGreatest_spec (Nat.zero_le 150) hP0
  have hLe : (alphaInnerGlow f : ℤ) ≤ ⌊(150 : ℝ) - 100 / 3 * (d - 1)⌋ := by
    rw [Int.le_floor]
    have := (hkey (alphaInnerGlow f) hKle).mp hPK
    push_cast
    exact this
  have hv0 : (0 : ℝ) ≤ 150 - 100 / 3 * (d - 1) := by linarith
  have hfl0 : 0 ≤ ⌊(150 : ℝ) - 100 / 3 * (d - 1)⌋ := Int.floor_nonneg.mpr hv0
  have hfl150 : ⌊(150 : ℝ) - 100 / 3 * (d - 1)⌋ ≤ 150 := by
    have h2 : ⌊(150 : ℝ) - 100 / 3 * (d - 1)⌋ ≤ ⌊((150 : ℤ) : ℝ)⌋ :=
      Int.floor_le_floor (by push_cast; linarith)
    rwa [Int.floor_intCast] at h2
  have hj : ((⌊(150 : ℝ) - 100 / 3 * (d - 1)⌋.toNat : ℤ))
      = ⌊(150 : ℝ) - 100 / 3 * (d - 1)⌋ := Int.toNat_of_nonneg hfl0
  have hj150 : ⌊(150 : ℝ) - 100 / 3 * (d - 1)⌋.toNat ≤ 150 := by omega
  have hPj : innerP f (⌊(150 : ℝ) - 100 / 3 * (d - 1)⌋.toNat) := by
    refine (hkey _ hj150).mpr ?_
    have hfle : ((⌊(150 : ℝ) - 100 / 3 * (d - 1)⌋ : ℤ) : ℝ)
        ≤ 150 - 100 / 3 * (d - 1) := Int.floor_le _
    rw [← hj] at hfle
    exact_mod_cast hfle
  have h2 : ⌊(150 : ℝ) - 100 / 3 * (d - 1)⌋.toNat ≤ alphaInnerGlow f :=
    Nat.le_findGreatest hj150 hPj
  omega

/-- When the pixel is strictly farther than the outline threshold
(`leOutlineT` false), the truncated outer-glow alpha never reaches 150. -/
lemma alphaOuterGlow_le_149 (f : Frac) (hm : 0 < f.den)
    (hgt : leOutlineT f = false) : alphaOuterGlow f ≤ 149 := by
  have hgt' : f.den < f.num := by
    rw [leOutlineT] at hgt
    simpa using hgt
  have hKle : alphaOuterGlow f ≤ 150 := Nat.findGreatest_le 150
  by_contra hcon
  have h150 : alphaOuterGlow f = 150 := by omega
  have hP : outerP f 150 :=
    Nat.findGreatest_of_ne_zero h150 (by norm_num)
  rw [outerP] at hP
  norm_num at hP
  linarith

/-- When the pixel is strictly farther than the outline threshold
(`leOutlineT` false), the truncated inner-glow alpha never reaches 150. -/
lemma alphaInnerGlow_le_149 (f : Frac) (hm : 0 < f.den)
    (hgt : leOutlineT f = false) : alphaInnerGlow f ≤ 149 := by
  have hgt' : f.den < f.num := by
    rw [leOutlineT] at hgt
    simpa using hgt
  have hKle : alphaInnerGlow f ≤ 150 := Nat.findGreatest_le 150
  by_contra hcon
  have h150 : alphaInnerGlow f = 150 := by omega
  have hP : innerP f 150 :=
    Nat.findGreatest_of_ne_zero h150 (by norm_num)
  rw [innerP] at hP
  norm_num at hP
  linarith

/-! ### Encoder lemmas -/

lemma tgaHeader_length : tgaHeader.length = 18 := by decide

/-- Concatenating a 4-byte record per element of any index list. -/
lemma flatMap_pxBytes_length {α : Type} (l : List α) (g : α → Pixel) :
    (l.flatMap fun c => pxBytes (g c)).length = 4 * l.length := by
  induction l with
  | nil => rfl
  | cons c cs ih =>
    rw [List.flatMap_cons, List.length_append, ih]
    simp [pxBytes, List.length_cons]
    ring

/-- Concatenating a 32-entry coordinate row per row index. -/
lemma flatMap_row_length (ys : List ℕ) :
    (ys.flatMap fun y => (List.range 32).map fun x => (y, x)).length
      = 32 * ys.length := by
  induction ys with
  | nil => rfl
  | cons y ys ih =>
    rw [List.flatMap_cons, List.length_append, ih]
    simp [List.length_map, List.length_range, List.length_cons]
    ring

/-- A `flatMap` over mapped indices. -/
lemma map_flatMap_comp {α β γ : Type} (l : List α) (f : α → β) (g : β → List γ) :
    (l.map f).flatMap g = l.flatMap fun a => g (f a) := by
  induction l with
  | nil => rfl
  | cons a as ih =>
    rw [List.map_cons, List.flatMap_cons, List.flatMap_cons, ih]

lemma tgaCoords_length : tgaCoords.length = 1024 := by
  rw [tgaCoords, flatMap_row_length]
  simp [List.length_reverse, List.length_range]

lemma tgaCoords_bounds : ∀ c ∈ tgaCoords, c.1 < 32 ∧ c.2 < 32 := by
  intro c hc
  rw [tgaCoords] at hc
  simp only [List.mem_flatMap, List.mem_reverse, List.mem_range, List.mem_map] at hc
  obtain ⟨y, hy, x, hx, rfl⟩ := hc
  exact ⟨hy, hx⟩

/-- The first 32 coordinates of the pixel loop are row `y = 31`,
left to right. -/
lemma tgaCoords_split_first :
    tgaCoords = ((List.range 32).map fun x => ((31 : ℕ), x)) ++
      (((List.range 31).reverse).flatMap fun y =>
        (List.range 32).map fun x => (y, x)) := by
  rw [tgaCoords, List.range_succ, List.reverse_append, List.reverse_singleton,
    List.singleton_append, List.flatMap_cons]

/-- The last 32 coordinates of the pixel loop are row `y = 0`,
left to right. -/
lemma tgaCoords_split_last :
    tgaCoords = ((((List.range 31).map Nat.succ).reverse).flatMap fun y =>
        (List.range 32).map fun x => (y, x)) ++
      ((List.range 32).map fun x => ((0 : ℕ), x)) := by
  rw [tgaCoords, List.range_succ_eq_map, List.reverse_cons, List.flatMap_append]
  simp [List.flatMap_cons]

/-- A successful Python subscript `pixels[y][x]` returns `getPx`. -/
lemma lookupPx_eq_getPx (pixels : List (List Pixel)) (y x : ℕ)
    (h : (lookupPx pixels y x).isSome = true) :
    lookupPx pixels y x = some (getPx pixels y x) := by
  unfold lookupPx getPx
  cases h1 : pixels[y]? with
  | none => rw [lookupPx, h1] at h; simp at h
  | some row =>
    cases h2 : row[x]? with
    | none => rw [lookupPx, h1] at h; simp [h2] at h
    | some p =>
      simp [List.getD_eq_getElem?_getD, h1, h2]

/-- On a well-formed 32×32 grid every subscript used by the pixel loop
succeeds. -/
lemma grid32_lookup (pixels : List (List Pixel)) (h : grid32 pixels)
    {y x : ℕ} (hy : y < 32) (hx : x < 32) :
    lookupPx pixels y x = some (getPx pixels y x) := by
  obtain ⟨hlen, hrow⟩ := h
  have hy' : y < pixels.length := by omega
  have h1 : pixels[y]? = some pixels[y] := List.getElem?_eq_getElem hy'
  have hmem : pixels[y] ∈ pixels := List.getElem_mem hy'
  have hx' : x < pixels[y].length := by
    rw [(hrow _ hmem).1]; exact hx
  have h2 : pixels[y][x]? = some pixels[y][x] := List.getElem?_eq_getElem hx'
  unfold lookupPx getPx
  simp [List.getD_eq_getElem?_getD, h1, h2]

/-- The pixel loop over a coordinate list whose subscripts all succeed:
the produced stream is the concatenation of the per-pixel 4-byte records,
and no error is reported. -/
lemma writePixels_eq (pixels : List (List Pixel)) :
    ∀ l : List (ℕ × ℕ),
      (∀ c ∈ l, lookupPx pixels c.1 c.2 = some (getPx pixels c.1 c.2)) →
      writePixels pixels l
        = (l.flatMap fun c => pxBytes (getPx pixels c.1 c.2), true) := by
  intro l
  induction l with
  | nil => intro _; rfl
  | cons c cs ih =>
    intro hall
    have hc := hall c (List.mem_cons_self c cs)
    have hcs := fun c' hc' => hall c' (List.mem_cons_of_mem c hc')
    rw [List.flatMap_cons]
    unfold writePixels
    rw [hc, ih hcs]

/-- On a grid whose needed subscripts all succeed, `create_tga` writes the
full header-plus-stream byte sequence and reports no error. -/
lemma createTga_eq (pixels : List (List Pixel))
    (h : ∀ c ∈ tgaCoords, lookupPx pixels c.1 c.2 = some (getPx pixels c.1 c.2)) :
    createTga pixels
      = (tgaHeader ++ tgaCoords.flatMap fun c => pxBytes (getPx pixels c.1 c.2),
          true) := by
  unfold createTga
  rw [writePixels_eq pixels tgaCoords h]

/-- On a well-formed 32×32 grid, `create_tga` succeeds. -/
lemma createTga_eq_of_grid32 (pixels : List (List Pixel)) (h : grid32 pixels) :
    createTga pixels
      = (tgaHeader ++ tgaCoords.flatMap fun c => pxBytes (getPx pixels c.1 c.2),
          true) := by
  refine createTga_eq pixels fun c hc => ?_
  obtain ⟨h1, h2⟩ := tgaCoords_bounds c hc
  exact grid32_lookup pixels h h1 h2

/-- The pixel stream of `create_tga` is exactly 4096 bytes long. -/
lemma stream_length (pixels : List (List Pixel)) :
    (tgaCoords.flatMap fun c => pxBytes (getPx pixels c.1 c.2)).length = 4096 := by
  rw [flatMap_pxBytes_length, tgaCoords_length]

/-- The first 128 bytes of the pixel stream are the records of grid
row 31, left to right. -/
lemma stream_take_128 (pixels : List (List Pixel)) :
    (tgaCoords.flatMap fun c => pxBytes (getPx pixels c.1 c.2)).take 128
      = (List.range 32).flatMap fun x => pxBytes (getPx pixels 31 x) := by
  rw [tgaCoords_split_first, List.flatMap_append, map_flatMap_comp]
  have hlen : ((List.range 32).flatMap fun x =>
      pxBytes (getPx pixels ((31 : ℕ), x).1 ((31 : ℕ), x).2)).length = 128 := by
    rw [flatMap_pxBytes_length, List.length_range]
  rw [show (128 : ℕ) = ((List.range 32).flatMap fun x =>
      pxBytes (getPx pixels ((31 : ℕ), x).1 ((31 : ℕ), x).2)).length from hlen.symm]
  rw [List.take_left]

/-- Dropping the first 31 rows (3968 bytes) of the pixel stream leaves the
records of grid row 0, left to right. -/
lemma stream_drop_3968 (pixels : List (List Pixel)) :
    (tgaCoords.flatMap fun c => pxBytes (getPx pixels c.1 c.2)).drop 3968
      = (List.range 32).flatMap fun x => pxBytes (getPx pixels 0 x) := by
  rw [tgaCoords_split_last, List.flatMap_append, map_flatMap_comp]
  have hlen : (((((List.range 31).map Nat.succ).reverse).flatMap (fun y =>
      (List.range 32).map fun x => (y, x))).flatMap
        (fun c => pxBytes (getPx pixels c.1 c.2))).length = 3968 := by
    rw [flatMap_pxBytes_length, flatMap_row_length]
    simp [List.length_reverse, List.length_map, List.length_range]
  rw [show (3968 : ℕ) = (((((List.range 31).map Nat.succ).reverse).flatMap (fun y =>
      (List.range 32).map fun x => (y, x))).flatMap
        (fun c => pxBytes (getPx pixels c.1 c.2))).length from hlen.symm]
  rw [List.drop_left]

/-- The first record of a row block is the column-0 record. -/
lemma row_take_4 (pixels : List (List Pixel)) (y : ℕ) :
    ((List.range 32).flatMap fun x => pxBytes (getPx pixels y x)).take 4
      = pxBytes (getPx pixels y 0) := by
  rw [List.range_succ_eq_map, List.flatMap_cons]
  rw [show (4 : ℕ) = (pxBytes (getPx pixels y 0)).length from rfl]
  rw [List.take_left]

/-- The last record of a row block is the column-31 record. -/
lemma row_drop_124 (pixels : List (List Pixel)) (y : ℕ) :
    ((List.range 32).flatMap fun x => pxBytes (getPx pixels y x)).drop 124
      = pxBytes (getPx pixels y 31) := by
  rw [List.range_succ, List.flatMap_append]
  have hlen : ((List.range 31).flatMap fun x => pxBytes (getPx pixels y x)).length
      = 124 := by
    rw [flatMap_pxBytes_length, List.length_range]
  rw [show (124 : ℕ) = ((List.range 31).flatMap fun x =>
      pxBytes (getPx pixels y x)).length from hlen.symm]
  rw [List.drop_left]
  simp [List.flatMap_cons]

/-- Reading a header byte of the encoded file (offsets 0–17). -/
lemma file_getD_header (s : List ℕ) (i : ℕ) (hi : i < 18) (d : ℕ) :
    (tgaHeader ++ s).getD i d = tgaHeader.getD i d := by
  rw [List.getD_eq_getElem?_getD, List.getD_eq_getElem?_getD,
    List.getElem?_append_left (by rw [tgaHeader_length]; exact hi)]

/-- The byte stream of `create_tga` on a well-formed grid, dropped to the
start of the stored row of grid row 0 (byte offset `18 + 31·128 = 3986`). -/
lemma createTga_drop_3986 (pixels : List (List Pixel)) (h : grid32 pixels) :
    (createTga pixels).1.drop 3986
      = (List.range 32).flatMap fun x => pxBytes (getPx pixels 0 x) := by
  rw [createTga_eq_of_grid32 pixels h]
  rw [show (3986 : ℕ) = 18 + 3968 by norm_num, ← List.drop_drop]
  rw [show (18 : ℕ) = tgaHeader.length from tgaHeader_length.symm, List.drop_left]
  exact stream_drop_3968 pixels

/-- The last four bytes of the encoded file are the record of grid pixel
`(y, x) = (0, 31)`. -/
lemma createTga_drop_4110 (pixels : List (List Pixel)) (h : grid32 pixels) :
    (createTga pixels).1.drop 4110 = pxBytes (getPx pixels 0 31) := by
  rw [show (4110 : ℕ) = 3986 + 124 by norm_num, ← List.drop_drop,
    createTga_drop_3986 pixels h, row_drop_124]

/-- A failed outline comparison means the squared distance exceeds 1. -/
lemma den_lt_num_of_not_outline (f : Frac) (h : leOutlineT f = false) :
    f.den < f.num := by
  rw [leOutlineT] at h
  have h' : ¬(f.num ≤ f.den) := by simpa using h
  omega

/-- Row `y` of a grid built as `map` over `range`. -/
lemma mapRange_getD (size y : ℕ) (h : y < size) (g : ℕ → List Pixel) :
    ((List.range size).map g).getD y [] = g y := by
  rw [List.getD_eq_getElem?_getD, List.getElem?_map, List.getElem?_range h]
  rfl

/-! ### Compositor case analysis -/

/-- Whenever the outline test fires, the triangle pixel ends up opaque
black: the outline overwrites any outer glow, and the inner-glow stage is
disabled by its `min_dist > outline_thickness` conjunct. -/
lemma triPixel_black_of_outline (size px py : ℤ)
    (h : leOutlineT (triMinDistSq size px py) = true) :
    triPixel size px py = blackPx := by
  unfold triPixel
  simp [h]

/-- Whenever the outline test fires, the square pixel ends up opaque
black. -/
lemma sqPixel_black_of_outline (size px py : ℤ)
    (h : leOutlineT (sqEdgeDistSq size px py) = true) :
    sqPixel size px py = blackPx := by
  unfold sqPixel
  cases hI : sqInside size px py <;> simp [h, hI]

/-- Every triangle pixel is transparent, opaque black, or a white glow
pixel with alpha in `[11, 149]`. -/
lemma triPixel_classify (size px py : ℤ) :
    triPixel size px py = clearPx ∨ triPixel size px py = blackPx ∨
      ∃ a, triPixel size px py = whitePx a ∧ 11 ≤ a ∧ a ≤ 149 := by
  have hden := triMinDistSq_den_pos size px py
  cases hL : leOutlineT (triMinDistSq size px py) with
  | true => exact Or.inr (Or.inl (triPixel_black_of_outline size px py hL))
  | false =>
    unfold triPixel
    simp only [hL, Bool.not_false, Bool.and_true, Bool.false_eq_true, if_false]
    split_ifs with h1 h2 h3 h4 h5 h6 <;>
      first
        | exact Or.inl rfl
        | exact Or.inr (Or.inl rfl)
        | (refine Or.inr (Or.inr ⟨_, rfl, by omega, ?_⟩)
           first
             | exact alphaInnerGlow_le_149 _ hden hL
             | exact alphaOuterGlow_le_149 _ hden hL)

/-- Every square pixel is transparent, opaque black, or a white glow pixel
with alpha in `[11, 149]`. -/
lemma sqPixel_classify (size px py : ℤ) :
    sqPixel size px py = clearPx ∨ sqPixel size px py = blackPx ∨
      ∃ a, sqPixel size px py = whitePx a ∧ 11 ≤ a ∧ a ≤ 149 := by
  have hden := sqEdgeDistSq_den_pos size px py
  cases hL : leOutlineT (sqEdgeDistSq size px py) with
  | true => exact Or.inr (Or.inl (sqPixel_black_of_outline size px py hL))
  | false =>
    unfold sqPixel
    simp only [hL, Bool.not_false, Bool.and_true, Bool.and_false,
      Bool.false_eq_true, if_false]
    split_ifs with h1 h2 h3 h4 h5 h6 <;>
      first
        | exact Or.inl rfl
        | exact Or.inr (Or.inl rfl)
        | (refine Or.inr (Or.inr ⟨_, rfl, by omega, ?_⟩)
           first
             | exact alphaInnerGlow_le_149 _ hden hL
             | exact alphaOuterGlow_le_149 _ hden hL)

/-! ### Claims -/

/-- C3: for both rasterizers and every pixel, if the minimum real distance
to the shape boundary is at most the outline thickness 1, the final pixel is
opaque black `(0,0,0,255)` — the outline overwrites any outer glow — and
the outline guard and the inner-glow guard never both fire. -/
theorem claim_C3 (x y : ℤ) :
    (Real.sqrt (((triMinDistSq 32 x y).num : ℝ) / ((triMinDistSq 32 x y).den : ℝ)) ≤ 1 →
        triPixel 32 x y = blackPx) ∧
      ¬(triOutlineCond 32 x y = true ∧ triInnerCond 32 x y = true) ∧
      (Real.sqrt (((sqEdgeDistSq 32 x y).num : ℝ) / ((sqEdgeDistSq 32 x y).den : ℝ)) ≤ 1 →
        sqPixel 32 x y = blackPx) ∧
      ¬(sqOutlineCond 32 x y = true ∧ sqInnerCond 32 x y = true) := by
  refine ⟨?_, ?_, ?_, ?_⟩
  · intro h
    refine triPixel_black_of_outline 32 x y ?_
    rw [leOutlineT_iff_sqrt _ (triMinDistSq_num_nonneg 32 x y)
      (triMinDistSq_den_pos 32 x y)]
    exact h
  · rintro ⟨h1, h2⟩
    rw [triOutlineCond] at h1
    rw [triInnerCond, h1] at h2
    simp at h2
  · intro h
    refine sqPixel_black_of_outline 32 x y ?_
    rw [leOutlineT_iff_sqrt _ (sqEdgeDistSq_num_nonneg 32 x y)
      (sqEdgeDistSq_den_pos 32 x y)]
    exact h
  · rintro ⟨h1, h2⟩
    rw [sqOutlineCond] at h1
    have hl : leOutlineT (sqEdgeDistSq 32 x y) = true := by
      simp only [Bool.or_eq_true, Bool.and_eq_true] at h1
      rcases h1 with ⟨_, h⟩ | ⟨_, h⟩ <;> exact h
    rw [sqInnerCond, hl] at h2
    simp at h2

/-- Witness for C3 at the triangle's top vertex `(16, 7)` (distance 0) and
the square's left-edge midpoint `(8, 16)` (distance 0). -/
theorem claim_C3_witness :
    triPixel 32 16 7 = blackPx ∧ sqPixel 32 8 16 = blackPx := by
  constructor
  · refine (claim_C3 16 7).1 ?_
    have e : triMinDistSq 32 16 7 = ⟨0, 1⟩ := by decide
    rw [e]
    norm_num
  · refine (claim_C3 8 16).2.2.1 ?_
    have e : sqEdgeDistSq 32 8 16 = ⟨0, 1⟩ := by decide
    rw [e]
    norm_num

/-- C5: for both rasterizers no final pixel has an alpha value in `[1, 10]`:
every pixel's alpha is 0 or exceeds 10. -/
theorem claim_C5 (x y : ℤ) :
    ((triPixel 32 x y).a = 0 ∨ 10 < (triPixel 32 x y).a) ∧
      ((sqPixel 32 x y).a = 0 ∨ 10 < (sqPixel 32 x y).a) := by
  constructor
  · rcases triPixel_classify 32 x y with h | h | ⟨a, h, ha, _⟩
    · left; rw [h]; rfl
    · right; rw [h]; decide
    · right; rw [h]; show 10 < a; omega
  · rcases sqPixel_classify 32 x y with h | h | ⟨a, h, ha, _⟩
    · left; rw [h]; rfl
    · right; rw [h]; decide
    · right; rw [h]; show 10 < a; omega

/-- C7 (amended): the rasterizers perform no parameter validation: for every
canvas size — including degenerate sizes with `margin ≥ size/2` — they
return a `size × size` grid and never fail. -/
theorem claim_C7 (size : ℕ) :
    ((triangleGrid size).length = size ∧
      ∀ y, y < size → ((triangleGrid size).getD y []).length = size) ∧
    ((squareGrid size).length = size ∧
      ∀ y, y < size → ((squareGrid size).getD y []).length = size) := by
  refine ⟨⟨?_, ?_⟩, ?_, ?_⟩
  · rw [triangleGrid, List.length_map, List.length_range]
  · intro y hy
    rw [triangleGrid, mapRange_getD size y hy, List.length_map, List.length_range]
  · rw [squareGrid, List.length_map, List.length_range]
  · intro y hy
    rw [squareGrid, mapRange_getD size y hy, List.length_map, List.length_range]

/-- Counterexample to C7 as stated: with `margin = 7 ≥ 14/2` the triangle
rasterizer still returns a 14×14 grid, and with `margin = 8 ≥ 16/2` the
square rasterizer still returns a 16×16 grid — neither fails fast. -/
theorem claim_C7_counterexample :
    (triangleGrid 14).length = 14 ∧ (squareGrid 16).length = 16 := by
  constructor
  · rw [triangleGrid, List.length_map, List.length_range]
  · rw [squareGrid, List.length_map, List.length_range]

/-- Witness for C7 at the degenerate sizes 14 (triangle) and 16 (square). -/
theorem claim_C7_witness :
    ((triangleGrid 14).getD 0 []).length = 14 ∧
      ((squareGrid 16).getD 0 []).length = 16 :=
  ⟨(claim_C7 14).1.2 0 (by norm_num), (claim_C7 16).2.2 0 (by norm_num)⟩

/-- C8: with the default parameters (`margin = 7`, `size = 32`) the
point-in-triangle test classifies the canvas center `(16, 16)` as inside,
against the vertices `(16,7)`, `(7,24)`, `(24,24)`. -/
theorem claim_C8 :
    triTop 32 = (16, 7) ∧ triBL 32 = (7, 24) ∧ triBR 32 = (24, 24) ∧
      pointInTriangle (16, 7) (7, 24) (24, 24) 16 16 = true ∧
      triInside 32 16 16 = true := by decide

/-- C9: for the square with `margin = 8`, `size = 32`, the pixel `(8, 16)`
is classified inside with `edge_dist = 0`, the outline rule fires, and the
final pixel is `(0,0,0,255)`. -/
theorem claim_C9 :
    sqInside 32 8 16 = true ∧ sqEdgeDistSq 32 8 16 = ⟨0, 1⟩ ∧
      sqOutlineCond 32 8 16 = true ∧ sqPixel 32 8 16 = blackPx := by decide

/-- C1 (amended): on every 32×32 grid the encoder succeeds and emits the
header followed by the rows in the order of `tgaCoords` (row 31 down to
row 0, left to right), four bytes Blue, Green, Red, Alpha per pixel; the
record of grid pixel `(0, 0)` is the first record of the last stored row,
at byte offsets 3986–3989 — not the last record of the file. -/
theorem claim_C1 (pixels : List (List Pixel)) (h : grid32 pixels) :
    (createTga pixels).2 = true ∧
      (createTga pixels).1
        = tgaHeader ++ tgaCoords.flatMap (fun c => pxBytes (getPx pixels c.1 c.2)) ∧
      (∀ p : Pixel, pxBytes p = [p.b, p.g, p.r, p.a]) ∧
      ((createTga pixels).1.drop 3986).take 4 = pxBytes (getPx pixels 0 0) := by
  have heq := createTga_eq_of_grid32 pixels h
  refine ⟨by rw [heq], by rw [heq], fun p => rfl, ?_⟩
  rw [createTga_drop_3986 pixels h, row_take_4]

/-- Counterexample to C1 as stated: for the grid whose only non-transparent
pixel is `grid[0][0] = (10, 20, 30, 255)`, the last four-byte record of the
file is not `[30, 20, 10, 255]` (it is the transparent record of grid pixel
`(0, 31)`): the bytes of `grid[0][0]` sit at offsets 3986–3989 instead. -/
theorem claim_C1_counterexample :
    (createTga chanGrid).1.drop 4110 ≠ [30, 20, 10, 255] ∧
      (createTga chanGrid).1.drop 4110 = [0, 0, 0, 0] := by
  have h := createTga_drop_4110 chanGrid (by decide)
  rw [h]
  constructor
  · decide
  · decide

/-- Witness for C1 at the single-pixel grid: the record `[30, 20, 10, 255]`
(B, G, R, A) appears at byte offsets 3986–3989. -/
theorem claim_C1_witness :
    ((createTga chanGrid).1.drop 3986).take 4 = [30, 20, 10, 255] := by
  have h := (claim_C1 chanGrid (by decide)).2.2.2
  rw [h]
  decide

/-- C2: on every 32×32 grid the encoder's output is exactly 4114 bytes: an
18-byte header with image type 2 at offset 2, little-endian width and height
32 at offsets 12–13 and 14–15, 32 bits per pixel at offset 16, descriptor
0x08 at offset 17, all other header bytes zero, followed by a 4096-byte
pixel stream whose first 128 bytes are the records of grid row 31. -/
theorem claim_C2 (pixels : List (List Pixel)) (h : grid32 pixels) :
    (createTga pixels).2 = true ∧
      (createTga pixels).1.length = 4114 ∧
      (createTga pixels).1.getD 2 0 = 2 ∧
      (createTga pixels).1.getD 12 0 + 256 * (createTga pixels).1.getD 13 0 = 32 ∧
      (createTga pixels).1.getD 14 0 + 256 * (createTga pixels).1.getD 15 0 = 32 ∧
      (createTga pixels).1.getD 16 0 = 32 ∧
      (createTga pixels).1.getD 17 0 = 8 ∧
      (∀ i ∈ ([0, 1, 3, 4, 5, 6, 7, 8, 9, 10, 11, 13, 15] : List ℕ),
        (createTga pixels).1.getD i 0 = 0) ∧
      ((createTga pixels).1.drop 18).take 128
        = ((List.range 32).flatMap fun x => pxBytes (getPx pixels 31 x)) ∧
      ((createTga pixels).1.drop 18).length = 4096 := by
  have heq := createTga_eq_of_grid32 pixels h
  have hdrop : (createTga pixels).1.drop 18
      = tgaCoords.flatMap fun c => pxBytes (getPx pixels c.1 c.2) := by
    rw [heq]
    dsimp only
    rw [show (18 : ℕ) = tgaHeader.length from tgaHeader_length.symm, List.drop_left]
  refine ⟨by rw [heq], ?_, ?_, ?_, ?_, ?_, ?_, ?_, ?_, ?_⟩
  · rw [heq]
    dsimp only
    rw [List.length_append, tgaHeader_length, stream_length]
  · rw [heq]; dsimp only; rw [file_getD_header _ 2 (by norm_num)]; decide
  · rw [heq]; dsimp only
    rw [file_getD_header _ 12 (by norm_num), file_getD_header _ 13 (by norm_num)]
    decide
  · rw [heq]; dsimp only
    rw [file_getD_header _ 14 (by norm_num), file_getD_header _ 15 (by norm_num)]
    decide
  · rw [heq]; dsimp only; rw [file_getD_header _ 16 (by norm_num)]; decide
  · rw [heq]; dsimp only; rw [file_getD_header _ 17 (by norm_num)]; decide
  · intro i hi
    fin_cases hi <;>
      (rw [heq]; dsimp only; rw [file_getD_header _ _ (by norm_num)]; decide)
  · rw [hdrop, stream_take_128]
  · rw [hdrop, stream_length]

/-- Witness for C2 at the all-transparent 32×32 grid. -/
theorem claim_C2_witness :
    (createTga clearGrid).2 = true ∧ (createTga clearGrid).1.length = 4114 :=
  ⟨(claim_C2 clearGrid (by decide)).1, (claim_C2 clearGrid (by decide)).2.1⟩

/-- C4: wherever a glow rule fires, the stored alpha is the floor (integer
truncation) of the corresponding real-valued product:
`150·(1 − d/4.5)` for the outer glow and `150·(1 − (d−1)/4.5)` for the
inner glow, with `d` the pixel's real minimum distance to the boundary. -/
theorem claim_C4 (x y : ℤ) :
    (triOuterCond 32 x y = true →
        (alphaOuterGlow (triMinDistSq 32 x y) : ℤ)
          = ⌊(150 : ℝ) * (1 - Real.sqrt (((triMinDistSq 32 x y).num : ℝ) /
              ((triMinDistSq 32 x y).den : ℝ)) / (9 / 2))⌋) ∧
    (triInnerCond 32 x y = true →
        (alphaInnerGlow (triMinDistSq 32 x y) : ℤ)
          = ⌊(150 : ℝ) * (1 - (Real.sqrt (((triMinDistSq 32 x y).num : ℝ) /
              ((triMinDistSq 32 x y).den : ℝ)) - 1) / (9 / 2))⌋) ∧
    (sqOuterCond 32 x y = true →
        (alphaOuterGlow (sqEdgeDistSq 32 x y) : ℤ)
          = ⌊(150 : ℝ) * (1 - Real.sqrt (((sqEdgeDistSq 32 x y).num : ℝ) /
              ((sqEdgeDistSq 32 x y).den : ℝ)) / (9 / 2))⌋) ∧
    (sqInnerCond 32 x y = true →
        (alphaInnerGlow (sqEdgeDistSq 32 x y) : ℤ)
          = ⌊(150 : ℝ) * (1 - (Real.sqrt (((sqEdgeDistSq 32 x y).num : ℝ) /
              ((sqEdgeDistSq 32 x y).den : ℝ)) - 1) / (9 / 2))⌋) := by
  refine ⟨?_, ?_, ?_, ?_⟩
  · intro hc
    simp only [triOuterCond, Bool.and_eq_true] at hc
    exact alphaOuterGlow_eq_floor _ (triMinDistSq_num_nonneg 32 x y)
      (triMinDistSq_den_pos 32 x y) hc.2
  · intro hc
    simp only [triInnerCond, Bool.and_eq_true, Bool.not_eq_true'] at hc
    obtain ⟨⟨_, hl⟩, ht⟩ := hc
    exact alphaInnerGlow_eq_floor _ (triMinDistSq_num_nonneg 32 x y)
      (triMinDistSq_den_pos 32 x y)
      (le_of_lt (den_lt_num_of_not_outline _ hl)) ht
  · intro hc
    simp only [sqOuterCond, Bool.and_eq_true] at hc
    exact alphaOuterGlow_eq_floor _ (sqEdgeDistSq_num_nonneg 32 x y)
      (sqEdgeDistSq_den_pos 32 x y) hc.2
  · intro hc
    simp only [sqInnerCond, Bool.and_eq_true, Bool.not_eq_true'] at hc
    obtain ⟨⟨_, hl⟩, ht⟩ := hc
    exact alphaInnerGlow_eq_floor _ (sqEdgeDistSq_num_nonneg 32 x y)
      (sqEdgeDistSq_den_pos 32 x y)
      (le_of_lt (den_lt_num_of_not_outline _ hl)) ht

/-- Witness for C4 at four concrete glow pixels: triangle outer `(16, 3)`,
triangle inner `(16, 22)`, square outer `(6, 16)`, square inner
`(10, 16)`. -/
theorem claim_C4_witness :
    (alphaOuterGlow (triMinDistSq 32 16 3) : ℤ)
        = ⌊(150 : ℝ) * (1 - Real.sqrt (((triMinDistSq 32 16 3).num : ℝ) /
            ((triMinDistSq 32 16 3).den : ℝ)) / (9 / 2))⌋ ∧
      (alphaInnerGlow (triMinDistSq 32 16 22) : ℤ)
        = ⌊(150 : ℝ) * (1 - (Real.sqrt (((triMinDistSq 32 16 22).num : ℝ) /
            ((triMinDistSq 32 16 22).den : ℝ)) - 1) / (9 / 2))⌋ ∧
      (alphaOuterGlow (sqEdgeDistSq 32 6 16) : ℤ)
        = ⌊(150 : ℝ) * (1 - Real.sqrt (((sqEdgeDistSq 32 6 16).num : ℝ) /
            ((sqEdgeDistSq 32 6 16).den : ℝ)) / (9 / 2))⌋ ∧
      (alphaInnerGlow (sqEdgeDistSq 32 10 16) : ℤ)
        = ⌊(150 : ℝ) * (1 - (Real.sqrt (((sqEdgeDistSq 32 10 16).num : ℝ) /
            ((sqEdgeDistSq 32 10 16).den : ℝ)) - 1) / (9 / 2))⌋ :=
  ⟨(claim_C4 16 3).1 (by decide), (claim_C4 16 22).2.1 (by decide),
    (claim_C4 6 16).2.2.1 (by decide), (claim_C4 10 16).2.2.2 (by decide)⟩

/-- C6 (amended): the encoder performs no dimension check.  Whenever every
subscript `pixels[y][x]` with `y, x < 32` succeeds — in particular on grids
larger than 32×32 — it silently writes a full 4114-byte file from the
32×32 window and reports no error; on the empty grid it fails only once the
18-byte header has already been written (a partial file). -/
theorem claim_C6 :
    (∀ pixels : List (List Pixel),
        (∀ y < 32, ∀ x < 32, (lookupPx pixels y x).isSome = true) →
        (createTga pixels).2 = true ∧ (createTga pixels).1.length = 4114) ∧
      createTga [] = (tgaHeader, false) := by
  constructor
  · intro pixels h
    have hall : ∀ c ∈ tgaCoords,
        lookupPx pixels c.1 c.2 = some (getPx pixels c.1 c.2) := by
      intro c hc
      obtain ⟨h1, h2⟩ := tgaCoords_bounds c hc
      exact lookupPx_eq_getPx pixels c.1 c.2 (h c.1 h1 c.2 h2)
    have heq := createTga_eq pixels hall
    refine ⟨by rw [heq], ?_⟩
    rw [heq]
    dsimp only
    rw [List.length_append, tgaHeader_length, stream_length]
  · decide

/-- Counterexample to C6 as stated: handed the 32×33 grid `wideGrid` (one
extra column), the encoder reports no error and writes a full 4114-byte
file, silently truncating the extra column. -/
theorem claim_C6_counterexample :
    (createTga wideGrid).2 = true ∧ (createTga wideGrid).1.length = 4114 := by
  have hall : ∀ c ∈ tgaCoords,
      lookupPx wideGrid c.1 c.2 = some (getPx wideGrid c.1 c.2) := by
    intro c hc
    obtain ⟨h1, h2⟩ := tgaCoords_bounds c hc
    refine lookupPx_eq_getPx wideGrid c.1 c.2 ?_
    have h3 : c.2 < 33 := by omega
    have e1 : wideGrid[c.1]? = some (List.replicate 33 clearPx) := by
      rw [wideGrid, List.getElem?_replicate, if_pos h1]
    have e2 : (List.replicate 33 clearPx)[c.2]? = some clearPx := by
      rw [List.getElem?_replicate, if_pos h3]
    rw [lookupPx, e1]
    show ((List.replicate 33 clearPx)[c.2]?).isSome = true
    rw [e2]
    rfl
  have heq := createTga_eq wideGrid hall
  refine ⟨by rw [heq], ?_⟩
  rw [heq]
  dsimp only
  rw [List.length_append, tgaHeader_length, stream_length]

/-- Witness for C6 at the 40×32 grid `tallGrid` (eight extra rows): its
subscripts all succeed, and the encoder silently emits 4114 bytes. -/
theorem claim_C6_witness :
    (createTga tallGrid).2 = true ∧ (createTga tallGrid).1.length = 4114 := by
  refine (claim_C6).1 tallGrid ?_
  intro y hy x hx
  have hy' : y < 40 := by omega
  have e1 : tallGrid[y]? = some (List.replicate 32 clearPx) := by
    rw [tallGrid, List.getElem?_replicate, if_pos hy']
  have e2 : (List.replicate 32 clearPx)[x]? = some clearPx := by
    rw [List.getElem?_replicate, if_pos hx]
  rw [lookupPx, e1]
  show ((List.replicate 32 clearPx)[x]?).isSome = true
  rw [e2]
  rfl

/-- C10: every pixel of either rasterizer is the transparent background
`(0,0,0,0)`, the opaque black outline `(0,0,0,255)`, or a white glow pixel
`(255,255,255,a)` with `11 ≤ a ≤ 149` — never partially transparent black,
never opaque white, and never the nominal maximum alpha 150. -/
theorem claim_C10 (x y : ℤ) :
    (triPixel 32 x y = clearPx ∨ triPixel 32 x y = blackPx ∨
      ∃ a, triPixel 32 x y = whitePx a ∧ 11 ≤ a ∧ a ≤ 149) ∧
    (sqPixel 32 x y = clearPx ∨ sqPixel 32 x y = blackPx ∨
      ∃ a, sqPixel 32 x y = whitePx a ∧ 11 ≤ a ∧ a ≤ 149) :=
  ⟨triPixel_classify 32 x y, sqPixel_classify 32 x y⟩

end PfShapes
